import Mathlib

/-!
Verification development for the real-time messaging and presence subsystem
of the `hack2rank` web client (`src/components/Explore.tsx`).

The backend tree store is shallowly embedded as association lists keyed by
string paths (`chats/{id}`, `messages/{id}`, `userChats/{uid}/{chatId}`,
`status/{uid}`); each handler from the source is translated into a pure
function on that state. JavaScript string operations (`toLowerCase`, `trim`,
`startsWith`, `includes`) are embedded as character-list operations so every
definition evaluates by kernel reduction. `Array.prototype.sort` with a
consistent comparator is modelled by insertion sort over the relation the
comparator induces.
-/

namespace Hack2Rank

/-! ### Association-list store primitives -/

/-- Lookup of the first binding of key `k` (tree-store child read). -/
def assocGet (k : String) : List (String × α) → Option α
  | [] => none
  | (k', v) :: rest => if k' = k then some v else assocGet k rest

/-- `set(path, value)`: overwrite the binding of `k`, or append a fresh one. -/
def assocSet (k : String) (v : α) : List (String × α) → List (String × α)
  | [] => [(k, v)]
  | (k', v') :: rest => if k' = k then (k, v) :: rest else (k', v') :: assocSet k v rest

/-- `update(path, fields)`: apply `f` to the value bound at `k`, if any. -/
def assocUpdate (k : String) (f : α → α) : List (String × α) → List (String × α)
  | [] => []
  | (k', v) :: rest =>
    if k' = k then (k', f v) :: assocUpdate k f rest else (k', v) :: assocUpdate k f rest

/-- `remove(path)`: drop every binding of `k`. -/
def assocRemove (k : String) : List (String × α) → List (String × α)
  | [] => []
  | (k', v) :: rest => if k' = k then assocRemove k rest else (k', v) :: assocRemove k rest

theorem assocGet_assocSet_self (k : String) (v : α) (l : List (String × α)) :
    assocGet k (assocSet k v l) = some v := by
  induction l with
  | nil => simp [assocGet, assocSet]
  | cons hd tl ih =>
    obtain ⟨k0, v0⟩ := hd
    by_cases h : k0 = k
    · subst h; simp [assocSet, assocGet]
    · simpa [assocSet, assocGet, h] using ih

theorem assocGet_assocUpdate_self (k : String) (f : α → α) (l : List (String × α)) :
    assocGet k (assocUpdate k f l) = (assocGet k l).map f := by
  induction l with
  | nil => simp [assocGet, assocUpdate]
  | cons hd tl ih =>
    obtain ⟨k0, v0⟩ := hd
    by_cases h : k0 = k
    · subst h; simp [assocUpdate, assocGet]
    · simpa [assocUpdate, assocGet, h] using ih

theorem assocGet_assocUpdate_ne (k k' : String) (f : α → α) (l : List (String × α))
    (h : k' ≠ k) : assocGet k' (assocUpdate k f l) = assocGet k' l := by
  induction l with
  | nil => simp [assocGet, assocUpdate]
  | cons hd tl ih =>
    obtain ⟨k0, v0⟩ := hd
    by_cases hh : k0 = k
    · subst hh
      have hne : ¬ k0 = k' := fun hc => h (hc.symm)
      simpa [assocUpdate, assocGet, hne] using ih
    · by_cases hk' : k0 = k'
      · subst hk'; simp [assocUpdate, assocGet, hh]
      · simpa [assocUpdate, assocGet, hh, hk'] using ih

theorem assocGet_assocRemove_self (k : String) (l : List (String × α)) :
    assocGet k (assocRemove k l) = none := by
  induction l with
  | nil => simp [assocGet, assocRemove]
  | cons hd tl ih =>
    obtain ⟨k0, v0⟩ := hd
    by_cases h : k0 = k
    · simpa [assocRemove, assocGet, h] using ih
    · simpa [assocRemove, assocGet, h] using ih

theorem assocGet_assocRemove_ne (k k' : String) (l : List (String × α)) (h : k' ≠ k) :
    assocGet k' (assocRemove k l) = assocGet k' l := by
  induction l with
  | nil => simp [assocGet, assocRemove]
  | cons hd tl ih =>
    obtain ⟨k0, v0⟩ := hd
    by_cases hh : k0 = k
    · subst hh
      have hne : ¬ k0 = k' := fun hc => h (hc.symm)
      simpa [assocRemove, assocGet, hne] using ih
    · by_cases hk' : k0 = k'
      · subst hk'; simp [assocRemove, assocGet, hh]
      · simpa [assocRemove, assocGet, hh, hk'] using ih

/-! ### JavaScript string operations on character lists -/

/-- `String.prototype.toLowerCase()`. -/
def jsToLower (s : String) : String := ⟨s.data.map Char.toLower⟩

/-- `String.prototype.trim()`. -/
def jsTrim (s : String) : String :=
  ⟨((s.data.dropWhile Char.isWhitespace).reverse.dropWhile Char.isWhitespace).reverse⟩

/-- `s.startsWith(pre)`. -/
def jsStartsWith (s pre : String) : Bool := List.isPrefixOf pre.data s.data

/-- Auxiliary scan for substring containment. -/
def containsSubAux (needle : List Char) : List Char → Bool
  | [] => needle.isEmpty
  | c :: rest => List.isPrefixOf needle (c :: rest) || containsSubAux needle rest

/-- `s.includes(sub)`. -/
def jsIncludes (s sub : String) : Bool := containsSubAux sub.data s.data

/-! ### Data model (`src/firebase/config.ts` interfaces, Dates as epoch ms) -/

/-- `Chat.type : 'individual' | 'group'`. -/
inductive ChatType
  | individual
  | group
deriving DecidableEq, Repr

/-- The `{ name, avatar? }` snapshot stored per participant. -/
structure ParticipantDetail where
  name : String
  avatar : Option String
deriving DecidableEq, Repr

/-- `Chat.lastMessage` summary. -/
structure LastMessage where
  content : String
  timestamp : Int
  senderId : String
  senderName : String
deriving DecidableEq, Repr

/-- The `Chat` record stored at `chats/{id}` (body without the id key). -/
structure Chat where
  id : String
  type : ChatType
  participants : List String
  participantDetails : List (String × ParticipantDetail)
  admins : Option (List String)
  createdBy : Option String
  lastMessage : Option LastMessage
  name : Option String
  createdAt : Int
  updatedAt : Int
deriving DecidableEq, Repr

/-- A `Message` as pushed under `messages/{chatId}` (ids are push-generated;
the log is kept as the push-ordered list of bodies). -/
structure Message where
  senderId : String
  senderName : String
  senderAvatar : Option String
  content : String
  timestamp : Int
  type : String
  chatId : String
deriving DecidableEq, Repr

/-- The record written at `status/{uid}` by `updateStatus`. -/
structure PresenceRecord where
  isOnline : Bool
  lastSeen : Int
deriving DecidableEq, Repr

/-- The `{ displayName, photoURL }` part of the signed-in user's directory
record, used as the sender/creator snapshot. -/
structure UserSnapshot where
  displayName : String
  photoURL : Option String
deriving DecidableEq, Repr

/-- The slice of the real-time tree store touched by the messaging and
presence subsystem: `chats/`, `messages/`, `userChats/` and `status/`.
`userChats/{uid}` is the set of chat ids carrying a `true` marker. -/
structure DB where
  chats : List (String × Chat)
  messages : List (String × List Message)
  userChats : List (String × List String)
  status : List (String × PresenceRecord)
deriving DecidableEq, Repr

/-- The message log currently stored under `messages/{chatId}`. -/
def msgLog (chatId : String) (db : DB) : List Message :=
  (assocGet chatId db.messages).getD []

/-- `push(messages/{chatId}, m)`: append `m` to the log, creating the node
when absent. -/
def pushMessage (chatId : String) (m : Message) :
    List (String × List Message) → List (String × List Message)
  | [] => [(chatId, [m])]
  | (k, l) :: rest =>
    if k = chatId then (k, l ++ [m]) :: rest else (k, l) :: pushMessage chatId m rest

theorem assocGet_pushMessage_self (chatId : String) (m : Message)
    (l : List (String × List Message)) :
    assocGet chatId (pushMessage chatId m l) = some ((assocGet chatId l).getD [] ++ [m]) := by
  induction l with
  | nil => simp [assocGet, pushMessage]
  | cons hd tl ih =>
    obtain ⟨k0, v0⟩ := hd
    by_cases h : k0 = chatId
    · subst h; simp [pushMessage, assocGet]
    · simpa [pushMessage, assocGet, h] using ih

/-- `set(userChats/{uid}/{chatId}, true)`. -/
def addMarker (uid chatId : String) (uc : List (String × List String)) :
    List (String × List String) :=
  let cur := (assocGet uid uc).getD []
  assocSet uid (if chatId ∈ cur then cur else cur ++ [chatId]) uc

/-- `remove(userChats/{uid}/{chatId})`. -/
def removeMarker (uid chatId : String) (uc : List (String × List String)) :
    List (String × List String) :=
  assocUpdate uid (fun l => l.filter (fun c => c ≠ chatId)) uc

theorem marker_gone_after_removeMarker (uid chatId : String)
    (uc : List (String × List String)) :
    chatId ∉ ((assocGet uid (removeMarker uid chatId uc)).getD []) := by
  unfold removeMarker
  rw [assocGet_assocUpdate_self]
  cases h : assocGet uid uc with
  | none => simp
  | some l => simp

theorem assocGet_removeMarker_ne (uid u chatId : String)
    (uc : List (String × List String)) (h : u ≠ uid) :
    assocGet u (removeMarker uid chatId uc) = assocGet u uc :=
  assocGet_assocUpdate_ne uid u _ uc h

/-! ### Presence Tracker (`Messages` presence effect, lines 669–736, and
`getOnlineStatus` / `formatLastSeen`, lines 1307–1360) -/

/-- `updateStatus(isOnline)`: `set(status/{uid}, {isOnline, lastSeen: now, uid})`. -/
def updateStatus (uid : String) (nowMs : Int) (isOnline : Bool)
    (st : List (String × PresenceRecord)) : List (String × PresenceRecord) :=
  assocSet uid { isOnline := isOnline, lastSeen := nowMs } st

/-- `set(status/{uid}/isOnline, v)`: overwrite just the flag of the record. -/
def setIsOnlineField (uid : String) (v : Bool)
    (st : List (String × PresenceRecord)) : List (String × PresenceRecord) :=
  assocUpdate uid (fun r => { r with isOnline := v }) st

/-- The `.info/connected` handler body (lines 685–691): when the snapshot is
`true`, call `updateStatus(true)` and then immediately execute
`set(ref(realtimeDb, status/{uid}/isOnline), false)` — the source performs a
plain write here, not an on-disconnect registration. -/
def onConnectedSignal (uid : String) (nowMs : Int) (connected : Bool)
    (st : List (String × PresenceRecord)) : List (String × PresenceRecord) :=
  if connected then setIsOnlineField uid false (updateStatus uid nowMs true st)
  else st

/-- The effective flag the status monitor stores for one raw record
(line 723): `userStatus.isOnline && timeDiff < 120000`. -/
def effectiveEntry (rec : PresenceRecord) (nowMs : Int) : Bool × Int :=
  (rec.isOnline && decide (nowMs - rec.lastSeen < 120000), rec.lastSeen)

/-- The `onlineStatus` map built by the monitor effect (lines 709–736). -/
def buildStatusMap (raw : List (String × PresenceRecord)) (nowMs : Int) :
    List (String × (Bool × Int)) :=
  raw.map (fun p => (p.1, effectiveEntry p.2 nowMs))

/-- `formatLastSeen(date)` (lines 1311–1319); `Math.floor` division on a
possibly negative difference is floor division. -/
def formatLastSeen (nowMs lastSeenMs : Int) : String :=
  let diffInMinutes := Int.fdiv (nowMs - lastSeenMs) 60000
  if diffInMinutes < 1 then "Just now"
  else if diffInMinutes < 60 then toString diffInMinutes ++ "m ago"
  else if diffInMinutes < 1440 then toString (Int.fdiv diffInMinutes 60) ++ "h ago"
  else toString (Int.fdiv diffInMinutes 1440) ++ "d ago"

/-- `getOnlineStatus(userId)` (lines 1352–1360) reading the monitor's map. -/
def getOnlineStatus (statusMap : List (String × (Bool × Int))) (userId : String)
    (nowMs : Int) : Bool × String :=
  match assocGet userId statusMap with
  | none => (false, "Unknown")
  | some (flag, last) => (flag, if flag then "Online" else formatLastSeen nowMs last)

/-! ### Chat Lifecycle Manager and Message Store (`Explore.tsx`, lines 932–1305) -/

/-- JavaScript's default string comparison (code-unit lexicographic `<`). -/
def charListLt : List Char → List Char → Bool
  | [], [] => false
  | [], _ :: _ => true
  | _ :: _, [] => false
  | c :: cs, d :: ds =>
    if c < d then true else if d < c then false else charListLt cs ds

/-- `a < b` for JavaScript strings. -/
def jsStrLt (a b : String) : Bool := charListLt a.data b.data

theorem charListLt_asymm :
    ∀ {a b : List Char}, charListLt a b = true → charListLt b a = false
  | [], [], h => by simp [charListLt] at h
  | [], _ :: _, _ => by simp [charListLt]
  | _ :: _, [], h => by simp [charListLt] at h
  | c :: cs, d :: ds, h => by
    by_cases hcd : c < d
    · have hdc : ¬ d < c := lt_asymm hcd
      simp [charListLt, hdc, hcd]
    · by_cases hdc : d < c
      · simp [charListLt, hcd, hdc] at h
      · simp [charListLt, hcd, hdc] at h ⊢
        exact charListLt_asymm h

theorem charListLt_false_false_eq :
    ∀ {a b : List Char}, charListLt a b = false → charListLt b a = false → a = b
  | [], [], _, _ => rfl
  | [], _ :: _, h, _ => by simp [charListLt] at h
  | _ :: _, [], _, h2 => by simp [charListLt] at h2
  | c :: cs, d :: ds, h1, h2 => by
    by_cases hcd : c < d
    · simp [charListLt, hcd] at h1
    · by_cases hdc : d < c
      · simp [charListLt, hdc] at h2
      · have hceq : c = d := le_antisymm (not_lt.mp hdc) (not_lt.mp hcd)
        subst hceq
        simp [charListLt, hcd] at h1 h2
        rw [charListLt_false_false_eq h1 h2]

/-- The canonical individual-chat id (line 947):
`[currentUser.uid, otherUserId].sort().join('_')`. A two-element
`Array.prototype.sort` keeps the pair when already ordered and swaps it
otherwise. -/
def individualChatId (a b : String) : String :=
  if jsStrLt b a then b ++ "_" ++ a else a ++ "_" ++ b

/-- `createOrGetIndividualChat(otherUserId, otherUserData)` (lines 932–985).
`localChats` is the component's loaded chat list; when a loaded individual
chat already contains the other user nothing is written, otherwise the chat
body and both membership markers are written. -/
def createOrGetIndividualChat (db : DB) (localChats : List Chat) (selfId : String)
    (selfData : UserSnapshot) (otherUserId : String) (otherUserData : UserSnapshot)
    (nowMs : Int) : DB :=
  match localChats.find? (fun chat =>
      chat.type == ChatType.individual && chat.participants.contains otherUserId) with
  | some _ => db
  | none =>
    let chatId := individualChatId selfId otherUserId
    let newChat : Chat :=
      { id := chatId
        type := ChatType.individual
        participants := [selfId, otherUserId]
        participantDetails :=
          [(selfId, { name := selfData.displayName, avatar := selfData.photoURL }),
           (otherUserId, { name := otherUserData.displayName, avatar := otherUserData.photoURL })]
        admins := none
        createdBy := none
        lastMessage := none
        name := none
        createdAt := nowMs
        updatedAt := nowMs }
    let db1 := { db with chats := assocSet chatId newChat db.chats }
    let db2 := { db1 with userChats := addMarker selfId chatId db1.userChats }
    { db2 with userChats := addMarker otherUserId chatId db2.userChats }

/-- `createGroupChat()` (lines 987–1059). `userDir` stands for the
`users/{id}` directory nodes read to populate `participantDetails`; `newId`
is the push-generated chat id. Fewer than one selected user aborts before
any write. -/
def createGroupChat (db : DB) (selfId : String) (selfData : UserSnapshot)
    (selectedUsers : List String) (groupName : String)
    (userDir : List (String × UserSnapshot)) (newId : String) (nowMs : Int) : DB :=
  if selectedUsers.length < 1 then db
  else
    let participants := selfId :: selectedUsers
    let details :=
      (selfId, ParticipantDetail.mk selfData.displayName selfData.photoURL) ::
        selectedUsers.filterMap (fun userId =>
          (assocGet userId userDir).map (fun u =>
            (userId, ParticipantDetail.mk u.displayName u.photoURL)))
    let newChat : Chat :=
      { id := newId
        type := ChatType.group
        participants := participants
        participantDetails := details
        admins := some [selfId]
        createdBy := some selfId
        lastMessage := none
        name := some (if groupName = "" then
          "Group with " ++ toString participants.length ++ " members" else groupName)
        createdAt := nowMs
        updatedAt := nowMs }
    let db1 := { db with chats := assocSet newId newChat db.chats }
    participants.foldl (fun acc userId =>
      { acc with userChats := addMarker userId newId acc.userChats }) db1

/-- `deleteChat(chatId)` (lines 1061–1097): always remove the caller's own
marker; only when the id is found in the loaded list as an individual chat,
also remove the other side's marker, the chat body and the message log. -/
def deleteChat (db : DB) (localChats : List Chat) (selfId chatId : String) : DB :=
  let db1 := { db with userChats := removeMarker selfId chatId db.userChats }
  match localChats.find? (fun c => c.id == chatId) with
  | some chat =>
    if chat.type = ChatType.individual then
      let db2 :=
        match chat.participants.find? (fun p => p != selfId) with
        | some otherUser => { db1 with userChats := removeMarker otherUser chatId db1.userChats }
        | none => db1
      { db2 with
        chats := assocRemove chatId db2.chats
        messages := assocRemove chatId db2.messages }
    else db1
  | none => db1

/-- `leaveGroup(chatId)` (lines 1099–1147). -/
def leaveGroup (db : DB) (localChats : List Chat) (selfId chatId : String)
    (nowMs : Int) : DB :=
  match localChats.find? (fun c => c.id == chatId) with
  | none => db
  | some chat =>
    let updatedParticipants := chat.participants.filter (fun p => p ≠ selfId)
    let updatedParticipantDetails := assocRemove selfId chat.participantDetails
    let updatedAdmins := ((chat.admins).getD []).filter (fun a => a ≠ selfId)
    let db1 :=
      if updatedParticipants = [] then
        { db with
          chats := assocRemove chatId db.chats
          messages := assocRemove chatId db.messages }
      else
        { db with chats := assocUpdate chatId (fun c =>
            { c with
              participants := updatedParticipants
              participantDetails := updatedParticipantDetails
              admins := some updatedAdmins
              updatedAt := nowMs }) db.chats }
    { db1 with userChats := removeMarker selfId chatId db1.userChats }

/-- Outcome reported to the user by `updateGroupName`. -/
inductive RenameResult
  | noop
  | permissionDenied
  | renamed
deriving DecidableEq, Repr

/-- `updateGroupName()` (lines 1149–1183): silent early return when there is
no active chat, the edited name trims to empty, or nobody is signed in; a
permission notice and no write when the caller is not an admin; otherwise an
update of `name` and `updatedAt`. -/
def updateGroupName (db : DB) (activeChat : Option Chat) (currentUser : Option String)
    (editingGroupName : String) (nowMs : Int) : DB × RenameResult :=
  match activeChat, currentUser with
  | some chat, some uid =>
    if jsTrim editingGroupName = "" then (db, RenameResult.noop)
    else if uid ∈ (chat.admins).getD [] then
      ({ db with chats := assocUpdate chat.id (fun c =>
          { c with name := some (jsTrim editingGroupName), updatedAt := nowMs }) db.chats },
       RenameResult.renamed)
    else (db, RenameResult.permissionDenied)
  | _, _ => (db, RenameResult.noop)

/-- Outcome reported by the admin-gated member mutations. -/
inductive AdminOpResult
  | noop
  | permissionDenied
  | done
deriving DecidableEq, Repr

/-- `removeUserFromGroup(userId)` (lines 1185–1226). -/
def removeUserFromGroup (db : DB) (activeChat : Option Chat) (currentUser : Option String)
    (userId : String) (nowMs : Int) : DB × AdminOpResult :=
  match activeChat, currentUser with
  | some chat, some uid =>
    if uid ∈ (chat.admins).getD [] then
      let updatedParticipants := chat.participants.filter (fun p => p ≠ userId)
      let updatedParticipantDetails := assocRemove userId chat.participantDetails
      let updatedAdmins := ((chat.admins).getD []).filter (fun a => a ≠ userId)
      let db1 := { db with chats := assocUpdate chat.id (fun c =>
          { c with
            participants := updatedParticipants
            participantDetails := updatedParticipantDetails
            admins := some updatedAdmins
            updatedAt := nowMs }) db.chats }
      ({ db1 with userChats := removeMarker userId chat.id db1.userChats },
       AdminOpResult.done)
    else (db, AdminOpResult.permissionDenied)
  | _, _ => (db, AdminOpResult.noop)

/-- `toggleAdmin(userId)` (lines 1228–1268): admin gate on the caller only;
flip the target's membership in `admins` (append when absent, filter out
when present) and write `admins`/`updatedAt`. -/
def toggleAdmin (db : DB) (activeChat : Option Chat) (currentUser : Option String)
    (userId : String) (nowMs : Int) : DB × AdminOpResult :=
  match activeChat, currentUser with
  | some chat, some uid =>
    if uid ∈ (chat.admins).getD [] then
      let current := (chat.admins).getD []
      let updatedAdmins :=
        if userId ∈ current then current.filter (fun a => a ≠ userId)
        else current ++ [userId]
      ({ db with chats := assocUpdate chat.id (fun c =>
          { c with admins := some updatedAdmins, updatedAt := nowMs }) db.chats },
       AdminOpResult.done)
    else (db, AdminOpResult.permissionDenied)
  | _, _ => (db, AdminOpResult.noop)

/-- `sendMessage()` (lines 1270–1305): local guard on trimmed-empty content,
then a push under `messages/{chatId}` followed by two separate writes of
`chats/{chatId}/lastMessage` and `chats/{chatId}/updatedAt`. -/
def sendMessage (db : DB) (activeChat : Option Chat) (currentUser : Option String)
    (userData : Option UserSnapshot) (newMessage : String) (nowMs : Int) : DB :=
  match activeChat, currentUser, userData with
  | some chat, some uid, some udata =>
    if jsTrim newMessage = "" then db
    else
      let content := jsTrim newMessage
      let m : Message :=
        { senderId := uid
          senderName := udata.displayName
          senderAvatar := udata.photoURL
          content := content
          timestamp := nowMs
          type := "text"
          chatId := chat.id }
      let lm : LastMessage :=
        { content := content
          timestamp := nowMs
          senderId := uid
          senderName := udata.displayName }
      let db1 := { db with messages := pushMessage chat.id m db.messages }
      let db2 := { db1 with chats := assocUpdate chat.id (fun c =>
          { c with lastMessage := some lm }) db1.chats }
      { db2 with chats := assocUpdate chat.id (fun c =>
          { c with updatedAt := nowMs }) db2.chats }
  | _, _, _ => db

/-! ### User Directory Search (`Explore.tsx`, lines 806–930) -/

/-- A user-directory document as consumed by the search effect; fields that
the source reads through `?.toLowerCase() || ''` are plain strings here. -/
structure UserRec where
  id : String
  displayName : String
  username : String
  email : String
deriving DecidableEq, Repr

/-- The comparator's prefix test (lines 898–901): lowercased display name or
username starts with the search term. -/
def isPrefixHit (term : String) (u : UserRec) : Bool :=
  jsStartsWith (jsToLower u.displayName) term || jsStartsWith (jsToLower u.username) term

/-- Sort rank: prefix hits first. -/
def searchRankKey (term : String) (u : UserRec) : Nat :=
  if isPrefixHit term u then 0 else 1

/-- The total preorder induced by the comparator at lines 891–911: rank by
prefix hit, ties by `localeCompare` on lowercased display names (embedded as
lexicographic string order). -/
def searchLE (term : String) (a b : UserRec) : Prop :=
  searchRankKey term a < searchRankKey term b ∨
    (searchRankKey term a = searchRankKey term b ∧
      jsToLower a.displayName ≤ jsToLower b.displayName)

instance (term : String) : DecidableRel (searchLE term) := fun a b =>
  decidable_of_iff
    (searchRankKey term a < searchRankKey term b ∨
      (searchRankKey term a = searchRankKey term b ∧
        jsToLower a.displayName ≤ jsToLower b.displayName)) Iff.rfl

instance (term : String) : IsTotal UserRec (searchLE term) where
  total a b := by
    unfold searchLE
    rcases Nat.lt_trichotomy (searchRankKey term a) (searchRankKey term b) with h | h | h
    · exact Or.inl (Or.inl h)
    · rcases le_total (jsToLower a.displayName) (jsToLower b.displayName) with hs | hs
      · exact Or.inl (Or.inr ⟨h, hs⟩)
      · exact Or.inr (Or.inr ⟨h.symm, hs⟩)
    · exact Or.inr (Or.inl h)

instance (term : String) : IsTrans UserRec (searchLE term) where
  trans a b c hab hbc := by
    unfold searchLE at *
    rcases hab with h1 | ⟨h1, hs1⟩
    · rcases hbc with h2 | ⟨h2, _⟩
      · exact Or.inl (h1.trans h2)
      · exact Or.inl (h2 ▸ h1)
    · rcases hbc with h2 | ⟨h2, hs2⟩
      · exact Or.inl (h1 ▸ h2)
      · exact Or.inr ⟨h1.trans h2, le_trans hs1 hs2⟩

/-- `results.set(doc.id, userData)` on a JavaScript `Map`: update in place
when the id exists, else append in insertion order. -/
def mapInsert (acc : List UserRec) (u : UserRec) : List UserRec :=
  if acc.any (fun v => v.id == u.id) then
    acc.map (fun v => if v.id == u.id then u else v)
  else acc ++ [u]

/-- Fold a batch of query results into the `Map`. -/
def mapInsertAll (acc : List UserRec) (l : List UserRec) : List UserRec :=
  l.foldl mapInsert acc

/-- `searchUsers` (lines 816–926) given the three query snapshots: the
display-name and username range-query results, and the bounded broad scan
used only when the first two leave the result map empty. Each phase keeps
documents other than the caller whose relevant field contains the term,
dedups by id, then sorts by the comparator and takes 8. -/
def searchUsersModel (searchQuery selfId : String)
    (displayNameResults usernameResults broadResults : List UserRec) : List UserRec :=
  let searchTerm := jsTrim (jsToLower searchQuery)
  let r1 := displayNameResults.filter (fun u =>
    u.id != selfId && jsIncludes (jsToLower u.displayName) searchTerm)
  let r2 := usernameResults.filter (fun u =>
    u.id != selfId && jsIncludes (jsToLower u.username) searchTerm)
  let primary := mapInsertAll (mapInsertAll [] r1) r2
  let results :=
    if primary.isEmpty then
      mapInsertAll [] (broadResults.filter (fun u =>
        u.id != selfId &&
          (jsIncludes (jsToLower u.displayName) searchTerm ||
           jsIncludes (jsToLower u.username) searchTerm ||
           jsIncludes (jsToLower u.email) searchTerm)))
    else primary
  (results.insertionSort (searchLE searchTerm)).take 8

/-! ### Concrete fixtures used by witnesses and counterexamples -/

/-- A two-member group whose only admin is `alice`. -/
def exGroupChat : Chat :=
  { id := "g1"
    type := ChatType.group
    participants := ["alice", "bob"]
    participantDetails := [("alice", ⟨"Alice", none⟩), ("bob", ⟨"Bob", none⟩)]
    admins := some ["alice"]
    createdBy := some "alice"
    lastMessage := none
    name := some "Study"
    createdAt := 0
    updatedAt := 0 }

/-- A group whose one remaining participant (and sole admin) is `alice`. -/
def exSoloChat : Chat :=
  { id := "g2"
    type := ChatType.group
    participants := ["alice"]
    participantDetails := [("alice", ⟨"Alice", none⟩)]
    admins := some ["alice"]
    createdBy := some "alice"
    lastMessage := none
    name := some "Solo"
    createdAt := 0
    updatedAt := 0 }

/-- One stored message under `g2`. -/
def exMsg : Message :=
  { senderId := "alice"
    senderName := "Alice"
    senderAvatar := none
    content := "hello"
    timestamp := 1
    type := "text"
    chatId := "g2" }

/-- A small store holding both fixture chats. -/
def exDB : DB :=
  { chats := [("g1", exGroupChat), ("g2", exSoloChat)]
    messages := [("g2", [exMsg])]
    userChats := [("alice", ["g1", "g2"]), ("bob", ["g1"])]
    status := [] }

/-- Directory records for the search-ranking example. -/
def exAlice : UserRec :=
  { id := "u1", displayName := "Alice Smith", username := "alice", email := "alice@x.com" }

/-- Directory record matched only as a mid-string hit for the query `ali`. -/
def exBobAlison : UserRec :=
  { id := "u2", displayName := "Bob Alison", username := "bobA", email := "bob@x.com" }

/-! ### Claim theorems -/

/-- C1: contrary to the claim, after the `.info/connected` handler completes
with a `true` snapshot the stored presence flag for the current user is
`false`: the handler writes `online=true` and then immediately overwrites
`status/{uid}/isOnline` with `false` through a plain write (line 689) rather
than registering it as an on-disconnect hook. -/
theorem connectedHandler_leaves_isOnline_false (uid : String) (nowMs : Int)
    (st : List (String × PresenceRecord)) :
    assocGet uid (onConnectedSignal uid nowMs true st) =
      some { isOnline := false, lastSeen := nowMs } := by
  unfold onConnectedSignal setIsOnlineField updateStatus
  simp [assocGet_assocUpdate_self, assocGet_assocSet_self]

/-- C6: the monitor's effective-online flag is exactly stored `isOnline` AND
`now − lastSeen < 120000` ms; a record written with `isOnline=true` at time
`t` is reported `Online` at `t+119s` and is effective-offline at `t+121s`. -/
theorem effective_online_staleness (rec : PresenceRecord) (nowMs : Int)
    (u : String) (t : Int) :
    (effectiveEntry rec nowMs).1
      = (rec.isOnline && decide (nowMs - rec.lastSeen < 120000)) ∧
    getOnlineStatus (buildStatusMap [(u, ⟨true, t⟩)] (t + 119000)) u (t + 119000)
      = (true, "Online") ∧
    (getOnlineStatus (buildStatusMap [(u, ⟨true, t⟩)] (t + 121000)) u (t + 121000)).1
      = false := by
  refine ⟨rfl, ?_, ?_⟩
  · have h : (t + 119000 : Int) - t = 119000 := by ring
    simp [buildStatusMap, effectiveEntry, getOnlineStatus, assocGet, h]
  · have h : (t + 121000 : Int) - t = 121000 := by ring
    simp [buildStatusMap, effectiveEntry, getOnlineStatus, assocGet, h]

/-- C2: `sendMessage` on whitespace-only content leaves the whole store
untouched; on non-empty content the chat's message log gains exactly one
entry and the stored chat's `lastMessage.content` is the trimmed content. -/
theorem sendMessage_spec (db : DB) (chat : Chat) (uid : String) (udata : UserSnapshot)
    (newMessage : String) (nowMs : Int) (c : Chat)
    (hc : assocGet chat.id db.chats = some c) :
    (jsTrim newMessage = "" →
      sendMessage db (some chat) (some uid) (some udata) newMessage nowMs = db) ∧
    (jsTrim newMessage ≠ "" →
      (msgLog chat.id (sendMessage db (some chat) (some uid) (some udata) newMessage nowMs)).length
        = (msgLog chat.id db).length + 1 ∧
      (assocGet chat.id
          (sendMessage db (some chat) (some uid) (some udata) newMessage nowMs).chats).map
        (fun c' => c'.lastMessage.map (fun lm => lm.content))
        = some (some (jsTrim newMessage))) := by
  constructor
  · intro h
    simp [sendMessage, h]
  · intro h
    constructor
    · simp [sendMessage, h, msgLog, assocGet_pushMessage_self]
    · simp [sendMessage, h, assocGet_assocUpdate_self, hc]

/-- Closed instance of `sendMessage_spec` on the fixture store. -/
theorem sendMessage_spec_witness :
    assocGet "g2" exDB.chats = some exSoloChat ∧
    jsTrim "   " = "" ∧
    sendMessage exDB (some exSoloChat) (some "alice") (some ⟨"Alice", none⟩) "   " 7 = exDB ∧
    jsTrim " hi " ≠ "" ∧
    (msgLog "g2" (sendMessage exDB (some exSoloChat) (some "alice") (some ⟨"Alice", none⟩) " hi " 7)).length
      = (msgLog "g2" exDB).length + 1 ∧
    (assocGet "g2"
        (sendMessage exDB (some exSoloChat) (some "alice") (some ⟨"Alice", none⟩) " hi " 7).chats).map
      (fun c' => c'.lastMessage.map (fun lm => lm.content))
      = some (some (jsTrim " hi ")) := by
  have h := sendMessage_spec exDB exSoloChat "alice" ⟨"Alice", none⟩ " hi " 7 exSoloChat (by decide)
  have h0 := sendMessage_spec exDB exSoloChat "alice" ⟨"Alice", none⟩ "   " 7 exSoloChat (by decide)
  exact ⟨by decide, by decide, h0.1 (by decide), by decide,
    (h.2 (by decide)).1, (h.2 (by decide)).2⟩

/-- C3 counterexample: a caller who is not an admin (`bob`) invoking the
rename with a whitespace-only new name is silently dropped by the early
validation return — no write happens, but no permission error is reported
either, contradicting the claim that every non-admin call reports one. -/
theorem renameGroup_nonadmin_without_permission_error :
    "bob" ∉ (exGroupChat.admins).getD [] ∧
    updateGroupName exDB (some exGroupChat) (some "bob") " " 9 = (exDB, RenameResult.noop) ∧
    RenameResult.noop ≠ RenameResult.permissionDenied := by decide

/-- C3 (amended): provided the new name is nonempty after trimming, a
non-admin call performs no write and reports a permission error, and only an
admin call updates `name` and `updatedAt` (all other chat entries are left
unchanged). -/
theorem renameGroup_permission_gate (db : DB) (chat : Chat) (uid newName : String)
    (nowMs : Int) (hne : jsTrim newName ≠ "") :
    (uid ∉ (chat.admins).getD [] →
      updateGroupName db (some chat) (some uid) newName nowMs
        = (db, RenameResult.permissionDenied)) ∧
    (uid ∈ (chat.admins).getD [] →
      (updateGroupName db (some chat) (some uid) newName nowMs).2 = RenameResult.renamed ∧
      assocGet chat.id (updateGroupName db (some chat) (some uid) newName nowMs).1.chats
        = (assocGet chat.id db.chats).map (fun c =>
            { c with name := some (jsTrim newName), updatedAt := nowMs }) ∧
      ∀ k, k ≠ chat.id →
        assocGet k (updateGroupName db (some chat) (some uid) newName nowMs).1.chats
          = assocGet k db.chats) := by
  constructor
  · intro hadm
    simp [updateGroupName, hne, hadm]
  · intro hadm
    refine ⟨by simp [updateGroupName, hne, hadm], ?_, ?_⟩
    · simp [updateGroupName, hne, hadm, assocGet_assocUpdate_self]
    · intro k hk
      simp [updateGroupName, hne, hadm, assocGet_assocUpdate_ne _ _ _ _ hk]

/-- Closed instance of `renameGroup_permission_gate` on the fixture store:
`bob` is rejected with a permission error and writes nothing, `alice`
renames `g1`. -/
theorem renameGroup_permission_gate_witness :
    jsTrim " New Name " ≠ "" ∧
    "bob" ∉ (exGroupChat.admins).getD [] ∧
    updateGroupName exDB (some exGroupChat) (some "bob") " New Name " 9
      = (exDB, RenameResult.permissionDenied) ∧
    "alice" ∈ (exGroupChat.admins).getD [] ∧
    (updateGroupName exDB (some exGroupChat) (some "alice") " New Name " 9).2
      = RenameResult.renamed ∧
    assocGet "g1" (updateGroupName exDB (some exGroupChat) (some "alice") " New Name " 9).1.chats
      = (assocGet "g1" exDB.chats).map (fun c =>
          { c with name := some (jsTrim " New Name "), updatedAt := 9 }) := by
  have hb := renameGroup_permission_gate exDB exGroupChat "bob" " New Name " 9 (by decide)
  have ha := renameGroup_permission_gate exDB exGroupChat "alice" " New Name " 9 (by decide)
  exact ⟨by decide, by decide, hb.1 (by decide), by decide,
    (ha.2 (by decide)).1, (ha.2 (by decide)).2.1⟩

/-- C4: when the chat found in the loaded list loses its last participant,
`leaveGroup` deletes both the chat record and the chat's entire message log
and removes the caller's membership marker; when participants remain, the
chat record is updated in place (fields rewritten from the loaded chat) and
the message log is untouched. -/
theorem leaveGroup_spec (db : DB) (localChats : List Chat) (uid chatId : String)
    (nowMs : Int) (chat : Chat)
    (hfind : localChats.find? (fun c => c.id == chatId) = some chat) :
    (chat.participants.filter (fun p => p ≠ uid) = [] →
      assocGet chatId (leaveGroup db localChats uid chatId nowMs).chats = none ∧
      assocGet chatId (leaveGroup db localChats uid chatId nowMs).messages = none ∧
      chatId ∉ ((assocGet uid (leaveGroup db localChats uid chatId nowMs).userChats).getD [])) ∧
    (chat.participants.filter (fun p => p ≠ uid) ≠ [] →
      assocGet chatId (leaveGroup db localChats uid chatId nowMs).chats
        = (assocGet chatId db.chats).map (fun c =>
            { c with
              participants := chat.participants.filter (fun p => p ≠ uid)
              participantDetails := assocRemove uid chat.participantDetails
              admins := some (((chat.admins).getD []).filter (fun a => a ≠ uid))
              updatedAt := nowMs }) ∧
      assocGet chatId (leaveGroup db localChats uid chatId nowMs).messages
        = assocGet chatId db.messages ∧
      chatId ∉ ((assocGet uid (leaveGroup db localChats uid chatId nowMs).userChats).getD [])) := by
  constructor
  · intro hempty
    simp at hempty
    refine ⟨?_, ?_, ?_⟩
    · simp [leaveGroup, hfind]
      rw [if_pos hempty]
      simp [assocGet_assocRemove_self]
    · simp [leaveGroup, hfind]
      rw [if_pos hempty]
      simp [assocGet_assocRemove_self]
    · simp [leaveGroup, hfind]
      rw [if_pos hempty]
      simp [marker_gone_after_removeMarker]
  · intro hne
    simp at hne
    have hcond : ¬ (∀ a ∈ chat.participants, a = uid) := by
      obtain ⟨x, hx, hxu⟩ := hne
      exact fun hall => hxu (hall x hx)
    refine ⟨?_, ?_, ?_⟩
    · simp [leaveGroup, hfind]
      rw [if_neg hcond]
      simp [assocGet_assocUpdate_self]
    · simp [leaveGroup, hfind]
      rw [if_neg hcond]
    · simp [leaveGroup, hfind]
      rw [if_neg hcond]
      simp [marker_gone_after_removeMarker]

/-- Closed instance of `leaveGroup_spec`: `alice` leaving the solo group `g2`
removes the record, the log and her marker; `alice` leaving `g1` (where `bob`
remains) rewrites the record in place. -/
theorem leaveGroup_spec_witness :
    List.find? (fun c => c.id == "g2") [exSoloChat] = some exSoloChat ∧
    exSoloChat.participants.filter (fun p => p ≠ "alice") = [] ∧
    assocGet "g2" (leaveGroup exDB [exSoloChat] "alice" "g2" 11).chats = none ∧
    assocGet "g2" (leaveGroup exDB [exSoloChat] "alice" "g2" 11).messages = none ∧
    "g2" ∉ ((assocGet "alice" (leaveGroup exDB [exSoloChat] "alice" "g2" 11).userChats).getD []) ∧
    exGroupChat.participants.filter (fun p => p ≠ "alice") ≠ [] ∧
    assocGet "g1" (leaveGroup exDB [exGroupChat] "alice" "g1" 11).chats
      = (assocGet "g1" exDB.chats).map (fun c =>
          { c with
            participants := exGroupChat.participants.filter (fun p => p ≠ "alice")
            participantDetails := assocRemove "alice" exGroupChat.participantDetails
            admins := some (((exGroupChat.admins).getD []).filter (fun a => a ≠ "alice"))
            updatedAt := (11 : Int) }) := by
  have h2 := leaveGroup_spec exDB [exSoloChat] "alice" "g2" 11 exSoloChat (by decide)
  have h1 := leaveGroup_spec exDB [exGroupChat] "alice" "g1" 11 exGroupChat (by decide)
  exact ⟨by decide, by decide, (h2.1 (by decide)).1, (h2.1 (by decide)).2.1,
    (h2.1 (by decide)).2.2, by decide, (h1.2 (by decide)).1⟩

/-- C9: when the chat id is not found in the loaded list, or is found with a
type other than `individual`, `deleteChat` removes only the caller's own
membership marker: the chat records, every message log, and every other
user's markers are untouched. -/
theorem deleteChat_nonindividual_frame (db : DB) (localChats : List Chat)
    (selfId chatId : String)
    (h : (localChats.find? (fun c => c.id == chatId)).map (fun c => c.type)
          ≠ some ChatType.individual) :
    (deleteChat db localChats selfId chatId).chats = db.chats ∧
    (deleteChat db localChats selfId chatId).messages = db.messages ∧
    (∀ u, u ≠ selfId →
      assocGet u (deleteChat db localChats selfId chatId).userChats
        = assocGet u db.userChats) ∧
    chatId ∉ ((assocGet selfId (deleteChat db localChats selfId chatId).userChats).getD []) := by
  cases hfind : localChats.find? (fun c => c.id == chatId) with
  | none =>
    refine ⟨by simp [deleteChat, hfind], by simp [deleteChat, hfind], ?_, ?_⟩
    · intro u hu
      simp [deleteChat, hfind, assocGet_removeMarker_ne _ _ _ _ hu]
    · simp [deleteChat, hfind, marker_gone_after_removeMarker]
  | some chat =>
    rw [hfind] at h
    have htype : ¬ chat.type = ChatType.individual := by
      simpa using h
    refine ⟨by simp [deleteChat, hfind, htype], by simp [deleteChat, hfind, htype], ?_, ?_⟩
    · intro u hu
      simp [deleteChat, hfind, htype, assocGet_removeMarker_ne _ _ _ _ hu]
    · simp [deleteChat, hfind, htype, marker_gone_after_removeMarker]

/-- Closed instance of `deleteChat_nonindividual_frame`: `bob` deleting the
group `g1` loses only his own marker. -/
theorem deleteChat_nonindividual_frame_witness :
    (List.find? (fun c => c.id == "g1") [exGroupChat]).map (fun c => c.type)
      ≠ some ChatType.individual ∧
    (deleteChat exDB [exGroupChat] "bob" "g1").chats = exDB.chats ∧
    (deleteChat exDB [exGroupChat] "bob" "g1").messages = exDB.messages ∧
    assocGet "alice" (deleteChat exDB [exGroupChat] "bob" "g1").userChats
      = assocGet "alice" exDB.userChats ∧
    "g1" ∉ ((assocGet "bob" (deleteChat exDB [exGroupChat] "bob" "g1").userChats).getD []) := by
  have h := deleteChat_nonindividual_frame exDB [exGroupChat] "bob" "g1" (by decide)
  exact ⟨by decide, h.1, h.2.1, h.2.2.1 "alice" (by decide), h.2.2.2⟩

/-- C10: `toggleAdmin` gates only on the caller being an admin; the sole
admin toggling themselves writes a record whose admins list is empty while
every other field, participants included, is unchanged. -/
theorem toggleAdmin_sole_admin_self_demote (db : DB) (chat : Chat) (uid : String)
    (nowMs : Int) (hadm : chat.admins = some [uid])
    (hc : assocGet chat.id db.chats = some chat) :
    assocGet chat.id (toggleAdmin db (some chat) (some uid) uid nowMs).1.chats
      = some { chat with admins := some [], updatedAt := nowMs } ∧
    (toggleAdmin db (some chat) (some uid) uid nowMs).2 = AdminOpResult.done := by
  constructor
  · simp [toggleAdmin, hadm, assocGet_assocUpdate_self, hc]
  · simp [toggleAdmin, hadm]

/-- Closed instance of `toggleAdmin_sole_admin_self_demote` on `g2`, whose
sole admin is `alice`. -/
theorem toggleAdmin_sole_admin_self_demote_witness :
    exSoloChat.admins = some ["alice"] ∧
    assocGet "g2" exDB.chats = some exSoloChat ∧
    assocGet "g2" (toggleAdmin exDB (some exSoloChat) (some "alice") "alice" 13).1.chats
      = some { exSoloChat with admins := some [], updatedAt := 13 } ∧
    (toggleAdmin exDB (some exSoloChat) (some "alice") "alice" 13).2 = AdminOpResult.done := by
  have h := toggleAdmin_sole_admin_self_demote exDB exSoloChat "alice" 13 (by decide) (by decide)
  exact ⟨by decide, by decide, h.1, h.2⟩

/-- C7: the canonical individual-chat id is symmetric in the two user ids,
and on the no-existing-chat path the chat written under that id carries
exactly the two participants `[a, b]` (a two-element duplicate-free list for
distinct ids). -/
theorem individualChatId_symm_and_two_participants (a b : String)
    (sa sb : UserSnapshot) (db : DB) (localChats : List Chat) (nowMs : Int)
    (hab : a ≠ b)
    (hnone : localChats.find? (fun chat =>
        chat.type == ChatType.individual && chat.participants.contains b) = none) :
    individualChatId a b = individualChatId b a ∧
    (assocGet (individualChatId a b)
        (createOrGetIndividualChat db localChats a sa b sb nowMs).chats).map
      (fun c => c.participants) = some [a, b] ∧
    ([a, b] : List String).Nodup := by
  refine ⟨?_, ?_, by simp [hab]⟩
  · unfold individualChatId jsStrLt
    cases h1 : charListLt b.data a.data with
    | false =>
      cases h2 : charListLt a.data b.data with
      | false =>
        have hdata : a.data = b.data := charListLt_false_false_eq h2 h1
        have heq : a = b := by
          cases a; cases b; exact congrArg String.mk hdata
        subst heq; simp
      | true => simp [h1, h2]
    | true =>
      have h2 : charListLt a.data b.data = false := charListLt_asymm h1
      simp [h1, h2]
  · unfold createOrGetIndividualChat
    rw [hnone]
    simp [assocGet_assocSet_self]

/-- Closed instance of `individualChatId_symm_and_two_participants` for the
pair (`bob`, `alice`) with no loaded individual chat. -/
theorem individualChatId_symm_witness :
    ("bob" : String) ≠ "alice" ∧
    List.find? (fun chat =>
        chat.type == ChatType.individual && chat.participants.contains "alice")
      ([] : List Chat) = none ∧
    individualChatId "bob" "alice" = individualChatId "alice" "bob" ∧
    (assocGet (individualChatId "bob" "alice")
        (createOrGetIndividualChat exDB [] "bob" ⟨"Bob", none⟩ "alice" ⟨"Alice", none⟩ 5).chats).map
      (fun c => c.participants) = some ["bob", "alice"] := by
  have h := individualChatId_symm_and_two_participants "bob" "alice" ⟨"Bob", none⟩
    ⟨"Alice", none⟩ exDB [] 5 (by decide) (by decide)
  exact ⟨by decide, by decide, h.1, h.2.1⟩

/-- The §3 chat invariant: every admin id is a participant id. -/
def adminsSubset (c : Chat) : Prop :=
  ∀ a ∈ (c.admins).getD [], a ∈ c.participants

/-- Executable form of `adminsSubset`. -/
def adminsSubsetB (c : Chat) : Bool :=
  ((c.admins).getD []).all (fun a => c.participants.contains a)

theorem adminsSubsetB_iff (c : Chat) : adminsSubsetB c = true ↔ adminsSubset c := by
  simp [adminsSubsetB, adminsSubset]

/-- Chats are untouched by the membership-marker fan-out loop of
`createGroupChat`. -/
theorem chats_foldl_addMarker (l : List String) (newId : String) (db : DB) :
    (l.foldl (fun acc userId =>
      { acc with userChats := addMarker userId newId acc.userChats }) db).chats = db.chats := by
  induction l generalizing db with
  | nil => rfl
  | cons hd tl ih => simpa using ih _

/-- C5 counterexample: starting from a record satisfying
`admins ⊆ participants`, `toggleAdmin` invoked by the admin on a target id
outside the participant list writes a record violating the invariant — the
function places no guard on the target. -/
theorem toggleAdmin_breaks_adminsSubset :
    adminsSubsetB exGroupChat = true ∧
    (assocGet "g1" (toggleAdmin exDB (some exGroupChat) (some "alice") "mallory" 3).1.chats).map
      adminsSubsetB = some false := by decide

/-- C5 (amended): each group-chat mutation preserves `admins ⊆ participants`
on the record it writes, with `toggleAdmin` doing so only when the target id
is one of the chat's participants (on a non-participant target it can write
an admins list containing a non-participant). The admin gate must pass for
the member mutations to write at all. -/
theorem groupOps_preserve_adminsSubset
    (db1 : DB) (selfId1 : String) (sd1 : UserSnapshot) (sel1 : List String)
    (gname1 : String) (udir1 : List (String × UserSnapshot)) (newId1 : String) (t1 : Int)
    (db2 : DB) (chat2 : Chat) (uid2 target2 : String) (t2 : Int)
    (db3 : DB) (chat3 : Chat) (uid3 target3 : String) (t3 : Int)
    (db4 : DB) (chats4 : List Chat) (uid4 chatId4 : String) (t4 : Int) (chat4 : Chat) :
    (sel1 ≠ [] →
      ∀ c, assocGet newId1
          (createGroupChat db1 selfId1 sd1 sel1 gname1 udir1 newId1 t1).chats = some c →
        adminsSubset c) ∧
    (adminsSubset chat2 → uid2 ∈ (chat2.admins).getD [] →
      ∀ c, assocGet chat2.id
          (removeUserFromGroup db2 (some chat2) (some uid2) target2 t2).1.chats = some c →
        adminsSubset c) ∧
    (adminsSubset chat3 → uid3 ∈ (chat3.admins).getD [] →
      target3 ∈ chat3.participants →
      assocGet chat3.id db3.chats = some chat3 →
      ∀ c, assocGet chat3.id
          (toggleAdmin db3 (some chat3) (some uid3) target3 t3).1.chats = some c →
        adminsSubset c) ∧
    (chats4.find? (fun c => c.id == chatId4) = some chat4 → adminsSubset chat4 →
      ∀ c, assocGet chatId4 (leaveGroup db4 chats4 uid4 chatId4 t4).chats = some c →
        adminsSubset c) := by
  refine ⟨?_, ?_, ?_, ?_⟩
  · intro hsel c hc
    have hguard : ¬ (sel1.length < 1) := by
      cases sel1 with
      | nil => exact absurd rfl hsel
      | cons x xs => simp
    unfold createGroupChat at hc
    rw [if_neg hguard, chats_foldl_addMarker, assocGet_assocSet_self] at hc
    obtain rfl : _ = c := Option.some_injective _ hc
    intro a ha
    simp at ha
    simp [ha]
  · intro hinv hgate c hc
    simp only [removeUserFromGroup] at hc
    rw [if_pos hgate] at hc
    simp only [assocGet_assocUpdate_self, Option.map_eq_some'] at hc
    obtain ⟨c0, _, rfl⟩ := hc
    intro a ha
    simp at ha ⊢
    exact ⟨hinv a ha.1, ha.2⟩
  · intro hinv hgate htarget hsync c hc
    simp only [toggleAdmin] at hc
    rw [if_pos hgate] at hc
    simp only [assocGet_assocUpdate_self, Option.map_eq_some'] at hc
    obtain ⟨c0, hc0, rfl⟩ := hc
    rw [hsync] at hc0
    have hc0eq : chat3 = c0 := Option.some_injective _ hc0
    subst hc0eq
    intro a ha
    by_cases hmem : target3 ∈ (chat3.admins).getD []
    · rw [if_pos hmem] at ha
      simp at ha
      exact hinv a ha.1
    · rw [if_neg hmem] at ha
      simp at ha
      rcases ha with ha | rfl
      · exact hinv a ha
      · exact htarget
  · intro hfind hinv c hc
    simp only [leaveGroup, hfind] at hc
    by_cases hemp : chat4.participants.filter (fun p => p ≠ uid4) = []
    · rw [if_pos hemp] at hc
      simp [assocGet_assocRemove_self] at hc
    · rw [if_neg hemp] at hc
      simp only [assocGet_assocUpdate_self, Option.map_eq_some'] at hc
      obtain ⟨c0, _, rfl⟩ := hc
      intro a ha
      simp at ha ⊢
      exact ⟨hinv a ha.1, ha.2⟩

/-- Closed instance of `groupOps_preserve_adminsSubset`: group creation by
`alice`, removal of `bob`, `alice` toggling participant `bob`, and `alice`
leaving `g1` all write records satisfying the invariant. -/
theorem groupOps_preserve_adminsSubset_witness :
    (["bob"] : List String) ≠ [] ∧
    (∀ c, assocGet "g9"
        (createGroupChat exDB "alice" ⟨"Alice", none⟩ ["bob"] "Study" [] "g9" 2).chats = some c →
      adminsSubset c) ∧
    adminsSubset exGroupChat ∧ "alice" ∈ (exGroupChat.admins).getD [] ∧
    (∀ c, assocGet "g1"
        (removeUserFromGroup exDB (some exGroupChat) (some "alice") "bob" 2).1.chats = some c →
      adminsSubset c) ∧
    "bob" ∈ exGroupChat.participants ∧
    assocGet "g1" exDB.chats = some exGroupChat ∧
    (∀ c, assocGet "g1"
        (toggleAdmin exDB (some exGroupChat) (some "alice") "bob" 2).1.chats = some c →
      adminsSubset c) ∧
    List.find? (fun c => c.id == "g1") [exGroupChat] = some exGroupChat ∧
    (∀ c, assocGet "g1" (leaveGroup exDB [exGroupChat] "alice" "g1" 2).chats = some c →
      adminsSubset c) := by
  have h := groupOps_preserve_adminsSubset exDB "alice" ⟨"Alice", none⟩ ["bob"] "Study" [] "g9" 2
    exDB exGroupChat "alice" "bob" 2
    exDB exGroupChat "alice" "bob" 2
    exDB [exGroupChat] "alice" "g1" 2 exGroupChat
  have hinv : adminsSubset exGroupChat := (adminsSubsetB_iff _).mp (by decide)
  exact ⟨by decide, h.1 (by decide), hinv, by decide,
    h.2.1 hinv (by decide), by decide, by decide,
    h.2.2.1 hinv (by decide) (by decide) (by decide), by decide,
    h.2.2.2 (by decide) hinv⟩

/-- The comparator's order guarantees: a pair placed in order never puts a
non-prefix hit before a prefix hit, and within one rank class display names
ascend. -/
theorem searchLE_imp (term : String) (a b : UserRec) (h : searchLE term a b) :
    (isPrefixHit term a = false → isPrefixHit term b = false) ∧
    (isPrefixHit term a = isPrefixHit term b →
      jsToLower a.displayName ≤ jsToLower b.displayName) := by
  rcases h with hlt | ⟨heq, hle⟩
  · constructor
    · intro hfa
      by_cases hb : isPrefixHit term b = true
      · simp [searchRankKey, hfa, hb] at hlt
      · simpa using hb
    · intro heq'
      exfalso
      rw [searchRankKey, searchRankKey, heq'] at hlt
      exact lt_irrefl _ hlt
  · exact ⟨fun hfa => by
      by_cases hb : isPrefixHit term b = true
      · rw [searchRankKey, searchRankKey, hfa, hb] at heq
        simp at heq
      · simpa using hb,
    fun _ => hle⟩

/-- C8: the search pipeline returns at most 8 users, every prefix hit
(lowercased display name or username starting with the trimmed, lowercased
query) precedes every non-prefix hit, display names ascend within each rank
class, and on the directory {"Alice Smith"/alice, "Bob Alison"/bobA} the
query `ali` ranks Alice Smith before Bob Alison. -/
theorem searchUsers_cap_and_ranking (q selfId : String) (dn un broad : List UserRec) :
    (searchUsersModel q selfId dn un broad).length ≤ 8 ∧
    (searchUsersModel q selfId dn un broad).Pairwise (fun a b =>
      (isPrefixHit (jsTrim (jsToLower q)) a = false →
        isPrefixHit (jsTrim (jsToLower q)) b = false) ∧
      (isPrefixHit (jsTrim (jsToLower q)) a = isPrefixHit (jsTrim (jsToLower q)) b →
        jsToLower a.displayName ≤ jsToLower b.displayName)) ∧
    searchUsersModel "ali" "u0" [] [] [exBobAlison, exAlice] = [exAlice, exBobAlison] := by
  refine ⟨List.length_take_le 8 _, ?_, by decide⟩
  have hsorted :
      (searchUsersModel q selfId dn un broad).Pairwise
        (searchLE (jsTrim (jsToLower q))) :=
    List.Pairwise.sublist (List.take_sublist 8 _)
      (List.sorted_insertionSort (searchLE (jsTrim (jsToLower q))) _)
  exact hsorted.imp (searchLE_imp _ _ _)

end Hack2Rank
